import Mathlib

/-!
Verification of the query-parameter encoding engine and client plumbing of a
typed REST client library (a ReliefWeb API client written in Rust).

The definitions below are a shallow embedding of the source:

* `src/params.rs` — the `QueryParams` data model and its encoder
  `QueryParams::apply_to_url`, which turns a structured query description into
  an ordered list of (key, value) query-string pairs;
* `src/client.rs` — client construction (`Client::new`,
  `Client::new_with_scheme`) and `Client::get_with_params`, which prepends the
  `appname` identification pair;
* `src/endpoint.rs` — `ResourceEndpoint::list` and `ResourceEndpoint::get`;
* `src/response.rs` — the serde-derived decoding of the paginated
  `ApiResponse` envelope.

Strings are Lean `String`s; Rust `u32` values are modelled as `Nat` (the code
performs no arithmetic on them, only decimal formatting).  The
percent-encoding applied when the pairs are serialized into the final URL is
performed by the external `url`/`form_urlencoded` crate; it is modelled at the
byte level from the rules the specification states for it
(`application/x-www-form-urlencoded`: space becomes `+`, bytes outside
`[A-Za-z0-9*\x2d._]` become `%XX` with uppercase hex).
-/

namespace ReliefWeb

/-- `QueryProfile` from `params.rs`: which sets of fields to include. -/
inductive QueryProfile where
  | minimal
  | full
  | list
deriving DecidableEq

/-- The `Display` implementation for `QueryProfile`. -/
def QueryProfile.str : QueryProfile → String
  | .minimal => "minimal"
  | .full => "full"
  | .list => "list"

/-- `QueryPreset` from `params.rs`. -/
inductive QueryPreset where
  | minimal
  | latest
  | analysis
deriving DecidableEq

/-- The `Display` implementation for `QueryPreset`. -/
def QueryPreset.str : QueryPreset → String
  | .minimal => "minimal"
  | .latest => "latest"
  | .analysis => "analysis"

/-- `FilterOperator` from `params.rs`: AND or OR. -/
inductive FilterOperator where
  | OR
  | AND
deriving DecidableEq

/-- The `Display` implementation for `FilterOperator`. -/
def FilterOperator.str : FilterOperator → String
  | .AND => "AND"
  | .OR => "OR"

/-- `QueryQuery` from `params.rs`: a full-text search clause. -/
structure QueryQuery where
  value : String
  fields : List String
  operator : Option FilterOperator
deriving DecidableEq

/-- `QueryFilter` from `params.rs`: a refinement condition. -/
structure QueryFilter where
  field : String
  value : String
  operator : Option FilterOperator
  negate : Bool
deriving DecidableEq

/-- `SortDirection` from `params.rs`. -/
inductive SortDirection where
  | asc
  | desc
deriving DecidableEq

/-- The `Display` implementation for `SortDirection`. -/
def SortDirection.str : SortDirection → String
  | .asc => "asc"
  | .desc => "desc"

/-- `SortDescriptor` from `params.rs`. -/
structure SortDescriptor where
  field : String
  direction : SortDirection
deriving DecidableEq

/-- `QueryParams` from `params.rs`, field for field and in source order.  The
Rust fields `include` and `exclude` are named `incl` and `excl` here because
`include` is a Lean keyword; every default matches `#[derive(Default)]`. -/
structure QueryParams where
  query : List QueryQuery := []
  filter : List QueryFilter := []
  verbose : Option Bool := none
  limit : Option Nat := none
  offset : Option Nat := none
  sort : List SortDescriptor := []
  profile : Option QueryProfile := none
  preset : Option QueryPreset := none
  incl : List String := []
  excl : List String := []
deriving DecidableEq

/-- `QueryParams::new`. -/
def QueryParams.new : QueryParams := {}

/-- Builder method `QueryParams::profile` (named apart from the projection). -/
def QueryParams.withProfile (qp : QueryParams) (p : QueryProfile) : QueryParams :=
  { qp with profile := some p }

/-- Builder method `QueryParams::include` (extends the `include` list). -/
def QueryParams.withInclude (qp : QueryParams) (i : List String) : QueryParams :=
  { qp with incl := qp.incl ++ i }

/-- Builder method `QueryParams::exclude` (extends the `exclude` list). -/
def QueryParams.withExclude (qp : QueryParams) (e : List String) : QueryParams :=
  { qp with excl := qp.excl ++ e }

/-- An `if let Some(x) = o { qp.append_pair(..) }` block of `apply_to_url`:
one pair when the optional value is present, nothing when it is absent. -/
def optPairs {α : Type} (f : α → String × String) : Option α → List (String × String)
  | some a => [f a]
  | none => []

/-- The first-operator extraction inside `QueryParams::apply_to_url`:
`self.filter.iter().filter_map(|f| f.operator.as_ref()).next()`. -/
def firstFilterOperator (fs : List QueryFilter) : Option FilterOperator :=
  (fs.filterMap QueryFilter.operator).head?

/-- `QueryParams::apply_to_url` from `params.rs`: the ordered (key, value)
pairs appended to the URL's query string, block by block in source order.
Rust's `format!("query[{i}][value]")` and friends become string appends with
`toString i`.  In the source the first-operator extraction ends in `.unwrap()`
inside the `any(..)` guard; here the `none` case of that extraction (where
Rust would panic) emits nothing via `optPairs`, and is proved unreachable. -/
def QueryParams.applyToUrl (qp : QueryParams) : List (String × String) :=
  optPairs (fun v => ("verbose", if v then "1" else "0")) qp.verbose
  ++ optPairs (fun l => ("limit", toString l)) qp.limit
  ++ optPairs (fun o => ("offset", toString o)) qp.offset
  ++ optPairs (fun p => ("profile", p.str)) qp.profile
  ++ optPairs (fun p => ("preset", p.str)) qp.preset
  ++ qp.incl.map (fun inc => ("fields[include][]", inc))
  ++ qp.excl.map (fun exc => ("fields[exclude][]", exc))
  ++ qp.query.enum.flatMap (fun p =>
       ("query[" ++ toString p.1 ++ "][value]", p.2.value)
       :: p.2.fields.enum.map
            (fun q => ("query[" ++ toString p.1 ++ "][fields][" ++ toString q.1 ++ "]", q.2))
       ++ optPairs (fun op => ("query[" ++ toString p.1 ++ "][operator]", op.str)) p.2.operator)
  ++ (if qp.filter.isEmpty then []
      else
        (if qp.filter.any (fun f => f.operator.isSome) then
           optPairs (fun op => ("filter[operator]", op.str)) (firstFilterOperator qp.filter)
         else [])
        ++ qp.filter.enum.flatMap (fun p =>
             [("filter[conditions][" ++ toString p.1 ++ "][field]", p.2.field),
              ("filter[conditions][" ++ toString p.1 ++ "][value][]", p.2.value)]
             ++ (if p.2.negate
                 then [("filter[conditions][" ++ toString p.1 ++ "][negate]", "1")]
                 else [])
             ++ optPairs
                  (fun op => ("filter[conditions][" ++ toString p.1 ++ "][operator]", op.str))
                  p.2.operator))
  ++ qp.sort.map (fun s => ("sort[]", s.field ++ ":" ++ s.direction.str))

example :
    QueryParams.applyToUrl
      { QueryParams.new with
          filter := [⟨"status", "active", some .OR, true⟩] } =
      [("filter[operator]", "OR"),
       ("filter[conditions][0][field]", "status"),
       ("filter[conditions][0][value][]", "active"),
       ("filter[conditions][0][negate]", "1"),
       ("filter[conditions][0][operator]", "OR")] := by decide

example :
    QueryParams.applyToUrl
      { QueryParams.new with
          query := [⟨"foo bar", ["field+name"], none⟩] } =
      [("query[0][value]", "foo bar"),
       ("query[0][fields][0]", "field+name")] := by decide

example : QueryParams.applyToUrl QueryParams.new = [] := by decide

/-- Written from the spec's §4.1 step 9: "if any filter in the sequence
carries an operator, emit a single top-level `filter[operator]` pair using
the first such operator encountered" — the operator of the first filter, in
insertion order, whose operator is present. -/
def specFirstOperator : List QueryFilter → Option FilterOperator
  | [] => none
  | f :: fs =>
    match f.operator with
    | some op => some op
    | none => specFirstOperator fs

/-- The emission contract of spec §4.1, written from the spec's words, steps
1–10 in order: verbose, limit, offset, profile, preset, each include entry,
each exclude entry, each query clause indexed by its 0-based position (value,
fields indexed by position, operator when present), the filter block (single
top-level operator from the first filter carrying one, then per-condition
field / value / negate-iff-true / operator-iff-present, indexed by position),
and each sort descriptor as `field:direction`. -/
def specContractPairs (qp : QueryParams) : List (String × String) :=
  optPairs (fun v => ("verbose", if v then "1" else "0")) qp.verbose
  ++ optPairs (fun l => ("limit", toString l)) qp.limit
  ++ optPairs (fun o => ("offset", toString o)) qp.offset
  ++ optPairs (fun p => ("profile", p.str)) qp.profile
  ++ optPairs (fun p => ("preset", p.str)) qp.preset
  ++ qp.incl.map (fun inc => ("fields[include][]", inc))
  ++ qp.excl.map (fun exc => ("fields[exclude][]", exc))
  ++ (qp.query.mapIdx (fun i q =>
        ("query[" ++ toString i ++ "][value]", q.value)
        :: q.fields.mapIdx
             (fun j f => ("query[" ++ toString i ++ "][fields][" ++ toString j ++ "]", f))
        ++ optPairs (fun op => ("query[" ++ toString i ++ "][operator]", op.str)) q.operator)).flatten
  ++ (if qp.filter = [] then []
      else
        optPairs (fun op => ("filter[operator]", op.str)) (specFirstOperator qp.filter)
        ++ (qp.filter.mapIdx (fun i f =>
              [("filter[conditions][" ++ toString i ++ "][field]", f.field),
               ("filter[conditions][" ++ toString i ++ "][value][]", f.value)]
              ++ (if f.negate
                  then [("filter[conditions][" ++ toString i ++ "][negate]", "1")]
                  else [])
              ++ optPairs
                   (fun op => ("filter[conditions][" ++ toString i ++ "][operator]", op.str))
                   f.operator)).flatten)
  ++ qp.sort.map (fun s => ("sort[]", s.field ++ ":" ++ s.direction.str))

/-- `RELIEFWEB_DOMAIN` from `client.rs`. -/
def RELIEFWEB_DOMAIN : String := "api.reliefweb.int"

/-- `APIVersion` from `client.rs`. -/
inductive APIVersion where
  | v1
  | v2
deriving DecidableEq

/-- The `Display` implementation for `APIVersion`. -/
def APIVersion.str : APIVersion → String
  | .v1 => "v1"
  | .v2 => "v2"

/-- `Client` from `client.rs`.  The base URL is parsed and held by the
external `url` crate; the client is generic over that crate's URL type `U`
so that construction can be stated against any parser.  The `reqwest::Client`
transport handle carries no observable state and is omitted. -/
structure Client (U : Type) where
  apiBase : U
  appName : String
deriving DecidableEq

/-- `Client::new` from `client.rs`: assembles `https://{domain}/{version}/`,
parses it with the external URL parser (`parse`), propagates the parse error
with `?`, and otherwise stores the parsed base and the application name. -/
def Client.new {U E : Type} (parse : String → Except E U)
    (domain appName : String) (version : APIVersion) : Except E (Client U) := do
  let apiBase ← parse ("https://" ++ domain ++ "/" ++ version.str ++ "/")
  pure { apiBase := apiBase, appName := appName }

/-- `Client::new_with_scheme` from `client.rs`: same as `Client.new` with the
scheme supplied by the caller instead of fixed to `https`. -/
def Client.newWithScheme {U E : Type} (parse : String → Except E U)
    (scheme domain appName : String) (version : APIVersion) : Except E (Client U) := do
  let apiBase ← parse (scheme ++ "://" ++ domain ++ "/" ++ version.str ++ "/")
  pure { apiBase := apiBase, appName := appName }

/-- An outgoing GET request: the resolved URL path and the ordered query
pairs, before percent-encoded serialization. -/
structure Request where
  path : String
  queryPairs : List (String × String)
deriving DecidableEq

/-- `Client::get_with_params` from `client.rs`: appends the `appname` pair to
the endpoint URL's query, then the encoder's pairs when params are given. -/
def Client.getWithParams (c : Client String) (endpoint : Request)
    (params : Option QueryParams) : Request :=
  { endpoint with
      queryPairs :=
        endpoint.queryPairs ++ [("appname", c.appName)]
        ++ (match params with
            | some p => p.applyToUrl
            | none => []) }

/-- `ResourceEndpoint::list` from `endpoint.rs`.  The endpoint URL is
`self.client.api_base.join(self.resource)`: the base ends in `/` and the
resource is a plain path segment, so the external url crate's join appends
the segment and the joined URL carries no query pairs of its own. -/
def ResourceEndpoint.list (c : Client String) (resource : String)
    (params : Option QueryParams) : Request :=
  c.getWithParams { path := c.apiBase ++ resource, queryPairs := [] } params

/-- `ResourceEndpoint::get` from `endpoint.rs`: joins
`format!("{}/{}", self.resource, id)` onto the base (a relative path, so the
joined URL again has no query of its own), builds a fresh `QueryParams` from
the optional profile / include / exclude, and issues the request through
`get_with_params`. -/
def ResourceEndpoint.get (c : Client String) (resource id : String)
    (profile : Option QueryProfile) (inc exc : Option (List String)) : Request :=
  let params := QueryParams.new
  let params :=
    match profile with
    | some p => params.withProfile p
    | none => params
  let params :=
    match inc with
    | some i => params.withInclude i
    | none => params
  let params :=
    match exc with
    | some e => params.withExclude e
    | none => params
  c.getWithParams { path := c.apiBase ++ resource ++ "/" ++ id, queryPairs := [] } (some params)

/-- A JSON value, as handed to the serde decoders by `serde_json`. -/
inductive Json where
  | null
  | bool (b : Bool)
  | num (n : Int)
  | str (s : String)
  | arr (elems : List Json)
  | obj (members : List (String × Json))

/-- `HrefLink` from `response.rs`. -/
structure HrefLink where
  href : String
deriving DecidableEq

/-- `Links` from `response.rs` (`self_` is serialized as `self`). -/
structure Links where
  self_ : Option HrefLink
  next : Option HrefLink
  prev : Option HrefLink
deriving DecidableEq

/-- `ApiItem` from `response.rs`. -/
structure ApiItem (T : Type) where
  id : String
  score : Option Nat
  fields : T
  href : Option String
deriving DecidableEq

/-- `ApiResponse` from `response.rs` (`total_count` is renamed to JSON key
`totalCount` by `#[serde(rename = "totalCount")]`). -/
structure ApiResponse (T : Type) where
  href : Option String
  time : Option Nat
  links : Option Links
  total_count : Option Nat
  count : Option Nat
  data : List (ApiItem T)
deriving DecidableEq

/-- serde: deserialize a JSON string. -/
def decodeString : Json → Except String String
  | .str s => .ok s
  | _ => .error "expected string"

/-- serde: deserialize a `u32` (a non-negative integer below `2^32`). -/
def decodeU32 : Json → Except String Nat
  | .num n => if 0 ≤ n ∧ n < 4294967296 then .ok n.toNat else .error "invalid u32"
  | _ => .error "expected u32"

/-- serde: an `Option<T>` struct field — `none` when the key is missing or
its value is `null`, otherwise the field decoder applied to the value. -/
def getOptField {A : Type} (ms : List (String × Json)) (name : String)
    (dec : Json → Except String A) : Except String (Option A) :=
  match ms.lookup name with
  | none => .ok none
  | some .null => .ok none
  | some j => (dec j).map some

/-- serde: a required struct field — an error when the key is missing. -/
def getReqField {A : Type} (ms : List (String × Json)) (name : String)
    (dec : Json → Except String A) : Except String A :=
  match ms.lookup name with
  | some j => dec j
  | none => .error ("missing field " ++ name)

/-- serde-derived `Deserialize` for `HrefLink`: `href` is required. -/
def decodeHrefLink : Json → Except String HrefLink
  | .obj ms => (getReqField ms "href" decodeString).map HrefLink.mk
  | _ => .error "expected object"

/-- serde-derived `Deserialize` for `Links`: all three fields optional. -/
def decodeLinks : Json → Except String Links
  | .obj ms => do
    let s ← getOptField ms "self" decodeHrefLink
    let n ← getOptField ms "next" decodeHrefLink
    let p ← getOptField ms "prev" decodeHrefLink
    pure { self_ := s, next := n, prev := p }
  | _ => .error "expected object"

/-- serde: deserialize a `Vec` with the given element decoder. -/
def decodeVec {A : Type} (dec : Json → Except String A) : Json → Except String (List A)
  | .arr xs => xs.mapM dec
  | _ => .error "expected array"

/-- serde-derived `Deserialize` for `ApiItem<T>`: `id` and `fields` required,
`score` and `href` optional. -/
def decodeApiItem {T : Type} (decT : Json → Except String T) :
    Json → Except String (ApiItem T)
  | .obj ms => do
    let id ← getReqField ms "id" decodeString
    let score ← getOptField ms "score" decodeU32
    let fields ← getReqField ms "fields" decT
    let href ← getOptField ms "href" decodeString
    pure { id := id, score := score, fields := fields, href := href }
  | _ => .error "expected object"

/-- serde-derived `Deserialize` for `ApiResponse<T>` from `response.rs`:
`href`, `time`, `links`, `totalCount` and `count` are `Option` fields and may
be absent; `data` is a required `Vec<ApiItem<T>>`. -/
def decodeApiResponse {T : Type} (decT : Json → Except String T) :
    Json → Except String (ApiResponse T)
  | .obj ms => do
    let href ← getOptField ms "href" decodeString
    let time ← getOptField ms "time" decodeU32
    let links ← getOptField ms "links" decodeLinks
    let tc ← getOptField ms "totalCount" decodeU32
    let cnt ← getOptField ms "count" decodeU32
    let data ← getReqField ms "data" (decodeVec (decodeApiItem decT))
    pure { href := href, time := time, links := links,
           total_count := tc, count := cnt, data := data }
  | _ => .error "expected object"

/-- Uppercase hex digit of a value below 16, as used by percent-encoding. -/
def hexUpperDigit (n : Nat) : Char :=
  if n < 10 then Char.ofNat (48 + n) else Char.ofNat (55 + n)

/-- Numeric value of a hex digit character (digits and uppercase letters). -/
def hexVal (c : Char) : Nat :=
  if c.toNat ≤ 57 then c.toNat - 48 else c.toNat - 55

/-- The bytes `application/x-www-form-urlencoded` serialization leaves
unescaped: ASCII alphanumerics and `*`, `-` (45), `.`, `_`. -/
def isFormUrlSafeByte (b : Nat) : Bool :=
  (48 ≤ b && b ≤ 57) || (65 ≤ b && b ≤ 90) || (97 ≤ b && b ≤ 122)
  || b == 42 || b == 45 || b == 46 || b == 95

/-- `application/x-www-form-urlencoded` serialization of one byte, modelled
from the rules the spec states for the external `form_urlencoded` collaborator
(§4.1): space becomes `+`, safe bytes stand for themselves, every other byte
becomes `%XX` with uppercase hex. -/
def encodeByte (b : Nat) : List Char :=
  if b == 32 then ['+']
  else if isFormUrlSafeByte b then [Char.ofNat b]
  else ['%', hexUpperDigit (b / 16), hexUpperDigit (b % 16)]

/-- Serialize a byte string into query-string characters. -/
def formUrlEncodeBytes (bs : List Nat) : List Char :=
  bs.flatMap encodeByte

/-- `application/x-www-form-urlencoded` percent-decoding, modelled from the
spec's rules for the external collaborator: `+` becomes a space byte, `%XX`
becomes the byte with hex value `XX`, any other character stands for its own
code; a `%` not followed by two characters is left literal. -/
def formUrlDecodeChars : List Char → List Nat
  | [] => []
  | '+' :: rest => 32 :: formUrlDecodeChars rest
  | '%' :: hi :: lo :: rest => (16 * hexVal hi + hexVal lo) :: formUrlDecodeChars rest
  | c :: rest => c.toNat :: formUrlDecodeChars rest

/-- UTF-8 encoding of one character, as produced for the strings handed to
the form-urlencoded serializer. -/
def utf8Bytes (c : Char) : List Nat :=
  let n := c.toNat
  if n < 128 then [n]
  else if n < 2048 then [192 + n / 64, 128 + n % 64]
  else if n < 65536 then [224 + n / 4096, 128 + (n / 64) % 64, 128 + n % 64]
  else [240 + (n / 262144) % 8, 128 + (n / 4096) % 64, 128 + (n / 64) % 64, 128 + n % 64]

/-- The UTF-8 byte string of a Lean string. -/
def strBytes (s : String) : List Nat :=
  s.data.flatMap utf8Bytes

example : formUrlEncodeBytes (strBytes "foo bar") = "foo+bar".data := by decide

example : formUrlEncodeBytes (strBytes "field+name") = "field%2Bname".data := by decide

/-! ## Bridge lemmas between the source's iteration idioms and the spec's
position-indexed descriptions -/

lemma mapIdx_eq_enum_map_pair {α β : Type} (l : List α) (f : Nat → α → β) :
    l.mapIdx f = l.enum.map (fun p => f p.1 p.2) := by
  rw [List.mapIdx_eq_enum_map]
  rfl

lemma mapIdx_flatten_eq_enum_flatMap {α β : Type} (l : List α) (f : Nat → α → List β) :
    (l.mapIdx f).flatten = l.enum.flatMap (fun p => f p.1 p.2) := by
  rw [List.mapIdx_eq_enum_map, List.flatMap_def]
  rfl

lemma specFirstOperator_eq_firstFilterOperator (fs : List QueryFilter) :
    specFirstOperator fs = firstFilterOperator fs := by
  induction fs with
  | nil => rfl
  | cons f fs ih =>
    unfold specFirstOperator firstFilterOperator
    rw [List.filterMap_cons]
    cases h : f.operator with
    | none => simp only [h]; exact ih
    | some op => simp [h]

lemma specFirstOperator_isSome_iff_any (fs : List QueryFilter) :
    (specFirstOperator fs).isSome = fs.any (fun f => f.operator.isSome) := by
  induction fs with
  | nil => rfl
  | cons f fs ih =>
    unfold specFirstOperator
    cases h : f.operator <;> simp [h, ih]

/-- The source's guarded filter-operator block (emptiness test, `any` guard,
`filter_map(..).next()` extraction) coincides with the spec's description
(first filter carrying an operator). -/
lemma filterBlock_eq (fs : List QueryFilter) (conds : List (String × String)) :
    (if fs.isEmpty then []
     else
       (if fs.any (fun f => f.operator.isSome) then
          optPairs (fun op => ("filter[operator]", op.str)) (firstFilterOperator fs)
        else [])
       ++ conds)
    = (if fs = [] then []
       else
         optPairs (fun op => ("filter[operator]", op.str)) (specFirstOperator fs)
         ++ conds) := by
  cases fs with
  | nil => rfl
  | cons f fs =>
    rw [← specFirstOperator_eq_firstFilterOperator, ← specFirstOperator_isSome_iff_any]
    cases h : specFirstOperator (f :: fs) <;> simp [h, optPairs]

/-- C1.  The encoder emits its pairs in exactly the order and key shapes of
the spec's §4.1 contract: verbose, limit, offset, profile, preset, includes,
excludes, query clauses, the filter block, then sorts, with every query /
fields / filter-condition index being the 0-based position of the entry in
the corresponding ordered sequence. -/
theorem claim_C1_encoder_meets_spec_contract (qp : QueryParams) :
    qp.applyToUrl = specContractPairs qp := by
  unfold QueryParams.applyToUrl specContractPairs
  rw [mapIdx_flatten_eq_enum_flatMap, mapIdx_flatten_eq_enum_flatMap,
    filterBlock_eq]
  simp only [mapIdx_eq_enum_map_pair]

/-- The number of pairs an optional field contributes: one when present,
zero when absent. -/
def optCount {α : Type} : Option α → Nat
  | some _ => 1
  | none => 0

lemma optPairs_length {α : Type} (f : α → String × String) (o : Option α) :
    (optPairs f o).length = optCount o := by
  cases o <;> rfl

lemma map_snd_enumFrom {α : Type} (n : Nat) (l : List α) :
    (l.enumFrom n).map Prod.snd = l := by
  induction l generalizing n with
  | nil => rfl
  | cons a l ih => simp [List.enumFrom, ih]

lemma map_snd_enum {α : Type} (l : List α) : l.enum.map Prod.snd = l :=
  map_snd_enumFrom 0 l

/-- Length of an enumerated flat-map whose per-entry block length does not
depend on the entry's index. -/
lemma length_enum_flatMap {α β : Type} (l : List α) (f : Nat × α → List β) (g : α → Nat)
    (hg : ∀ p : Nat × α, (f p).length = g p.2) :
    (l.enum.flatMap f).length = (l.map g).sum := by
  have h1 : List.length ∘ f = g ∘ Prod.snd := funext hg
  rw [List.length_flatMap, h1, ← List.map_map, map_snd_enum]

/-- The guarded top-level filter-operator block emits exactly one pair when
some filter carries an operator, and none otherwise. -/
lemma guardedOp_length (fs : List QueryFilter) :
    ((if fs.any (fun f => f.operator.isSome) then
        optPairs (fun op => ("filter[operator]", op.str)) (firstFilterOperator fs)
      else []) : List (String × String)).length
    = if fs.any (fun f => f.operator.isSome) then 1 else 0 := by
  cases hA : fs.any (fun f => f.operator.isSome)
  · simp [hA]
  · have h1 : (specFirstOperator fs).isSome = true := by
      rw [specFirstOperator_isSome_iff_any, hA]
    obtain ⟨op, hop⟩ := Option.isSome_iff_exists.mp h1
    rw [← specFirstOperator_eq_firstFilterOperator]
    simp [hA, hop, optPairs]

/-- Length of the encoded query-clause block: one `value` pair per clause,
one pair per clause field, one `operator` pair when present. -/
lemma queryBlock_length (qs : List QueryQuery) :
    (qs.enum.flatMap (fun p =>
       ("query[" ++ toString p.1 ++ "][value]", p.2.value)
       :: p.2.fields.enum.map
            (fun q => ("query[" ++ toString p.1 ++ "][fields][" ++ toString q.1 ++ "]", q.2))
       ++ optPairs (fun op => ("query[" ++ toString p.1 ++ "][operator]", op.str)) p.2.operator)).length
    = (qs.map (fun q => 1 + q.fields.length + optCount q.operator)).sum := by
  apply length_enum_flatMap
  intro p
  simp [optPairs_length, List.enum_length]
  omega

/-- Length of the encoded filter-conditions block: `field` and `value[]`
pairs per condition, a `negate` pair only when negate is set, an `operator`
pair only when present. -/
lemma condsBlock_length (fs : List QueryFilter) :
    (fs.enum.flatMap (fun p =>
       [("filter[conditions][" ++ toString p.1 ++ "][field]", p.2.field),
        ("filter[conditions][" ++ toString p.1 ++ "][value][]", p.2.value)]
       ++ (if p.2.negate
           then [("filter[conditions][" ++ toString p.1 ++ "][negate]", "1")]
           else [])
       ++ optPairs
            (fun op => ("filter[conditions][" ++ toString p.1 ++ "][operator]", op.str))
            p.2.operator)).length
    = (fs.map (fun f => 2 + (if f.negate then 1 else 0) + optCount f.operator)).sum := by
  apply length_enum_flatMap
  intro p
  cases hn : p.2.negate <;> simp [optPairs_length, hn] <;> omega

/-- C3.  Absent optional fields contribute no pairs at all (no empty-string
placeholders): the default `QueryParams` encodes to zero pairs, and in
general the encoder's output length is exactly the number of present
fields — each absent option and each empty sequence contributes zero. -/
theorem claim_C3_absent_fields_contribute_no_pairs :
    QueryParams.applyToUrl {} = []
    ∧ ∀ qp : QueryParams,
        qp.applyToUrl.length =
          optCount qp.verbose + optCount qp.limit + optCount qp.offset
          + optCount qp.profile + optCount qp.preset
          + qp.incl.length + qp.excl.length
          + (qp.query.map (fun q => 1 + q.fields.length + optCount q.operator)).sum
          + (if qp.filter = [] then 0
             else
               (if qp.filter.any (fun f => f.operator.isSome) then 1 else 0)
               + (qp.filter.map
                   (fun f => 2 + (if f.negate then 1 else 0) + optCount f.operator)).sum)
          + qp.sort.length := by
  refine ⟨rfl, fun qp => ?_⟩
  unfold QueryParams.applyToUrl
  simp only [List.length_append, optPairs_length, List.length_map,
    queryBlock_length, condsBlock_length, guardedOp_length]
  cases hF : qp.filter with
  | nil => simp
  | cons f fs =>
    simp only [List.isEmpty_cons, Bool.false_eq_true, if_false, List.length_append,
      guardedOp_length, condsBlock_length]
    simp

/-- C9.  The `unwrap()` in `apply_to_url` cannot panic: whenever its guard
holds — some filter's operator is present — the first-operator extraction
`filter.iter().filter_map(|f| f.operator).next()` yields a value. -/
theorem claim_C9_first_operator_unwrap_safe (qp : QueryParams)
    (h : qp.filter.any (fun f => f.operator.isSome) = true) :
    (firstFilterOperator qp.filter).isSome = true := by
  rw [← specFirstOperator_eq_firstFilterOperator, specFirstOperator_isSome_iff_any]
  exact h

/-- Witness for C9 at a concrete query. -/
theorem claim_C9_witness :
    (QueryParams.filter
        { QueryParams.new with filter := [⟨"status", "active", some .OR, true⟩] }).any
        (fun f => f.operator.isSome) = true
      ∧ (firstFilterOperator
          (QueryParams.filter
            { QueryParams.new with
                filter := [⟨"status", "active", some .OR, true⟩] })).isSome = true :=
  ⟨by decide,
    claim_C9_first_operator_unwrap_safe
      { QueryParams.new with filter := [⟨"status", "active", some .OR, true⟩] }
      (by decide)⟩

example :
    QueryParams.applyToUrl
      { verbose := some true, limit := some 50, offset := some 10,
        profile := some .full, preset := some .analysis,
        incl := ["field1", "field2"], excl := ["field3"],
        query := [⟨"search", ["title"], some .AND⟩],
        filter := [⟨"status", "active", some .OR, false⟩],
        sort := [⟨"date", .desc⟩] } =
      [("verbose", "1"), ("limit", "50"), ("offset", "10"),
       ("profile", "full"), ("preset", "analysis"),
       ("fields[include][]", "field1"), ("fields[include][]", "field2"),
       ("fields[exclude][]", "field3"),
       ("query[0][value]", "search"), ("query[0][fields][0]", "title"),
       ("query[0][operator]", "AND"),
       ("filter[operator]", "OR"),
       ("filter[conditions][0][field]", "status"),
       ("filter[conditions][0][value][]", "active"),
       ("filter[conditions][0][operator]", "OR"),
       ("sort[]", "date:desc")] := by decide

/-- C2.  For a non-empty filter sequence the encoder's output is the output
for the same query without filters and sorts, followed by the filter block —
at most one top-level `filter[operator]` pair, present exactly when some
filter carries an operator and valued at the operator of the first filter (in
insertion order) that does (`specFirstOperator`), then per filter at its
0-based position the `field` pair, the `value[]` pair, a `negate=1` pair
exactly when negate is true, and an `operator` pair exactly when that
filter's operator is present — followed by the sort pairs. -/
theorem claim_C2_filter_block_emission (qp : QueryParams) (h : qp.filter ≠ []) :
    qp.applyToUrl =
      QueryParams.applyToUrl { qp with filter := [], sort := [] }
      ++ (optPairs (fun op => ("filter[operator]", op.str)) (specFirstOperator qp.filter)
          ++ qp.filter.enum.flatMap (fun p =>
               [("filter[conditions][" ++ toString p.1 ++ "][field]", p.2.field),
                ("filter[conditions][" ++ toString p.1 ++ "][value][]", p.2.value)]
               ++ (if p.2.negate
                   then [("filter[conditions][" ++ toString p.1 ++ "][negate]", "1")]
                   else [])
               ++ optPairs
                    (fun op => ("filter[conditions][" ++ toString p.1 ++ "][operator]", op.str))
                    p.2.operator))
      ++ qp.sort.map (fun s => ("sort[]", s.field ++ ":" ++ s.direction.str)) := by
  have hE : qp.filter.isEmpty = false := by
    cases hq : qp.filter with
    | nil => exact absurd hq h
    | cons a l => rfl
  have hOp : (if qp.filter.any (fun f => f.operator.isSome) then
        optPairs (fun op => ("filter[operator]", op.str)) (firstFilterOperator qp.filter)
      else []) = optPairs (fun op => ("filter[operator]", op.str)) (specFirstOperator qp.filter) := by
    rw [← specFirstOperator_eq_firstFilterOperator, ← specFirstOperator_isSome_iff_any]
    cases hs : specFirstOperator qp.filter <;> simp [hs, optPairs]
  unfold QueryParams.applyToUrl
  rw [hE, hOp]
  simp [List.append_assoc]

/-- Witness for C2: the spec's own scenario, a single
`{field: "status", value: "active", operator: Some(OR), negate: true}`
filter. -/
theorem claim_C2_witness :
    QueryParams.applyToUrl
        { QueryParams.new with filter := [⟨"status", "active", some .OR, true⟩] } =
      QueryParams.applyToUrl
        { { QueryParams.new with filter := [⟨"status", "active", some .OR, true⟩] } with
            filter := [], sort := [] }
      ++ (optPairs (fun op => ("filter[operator]", op.str))
            (specFirstOperator [⟨"status", "active", some .OR, true⟩])
          ++ ([⟨"status", "active", some .OR, true⟩] : List QueryFilter).enum.flatMap (fun p =>
               [("filter[conditions][" ++ toString p.1 ++ "][field]", p.2.field),
                ("filter[conditions][" ++ toString p.1 ++ "][value][]", p.2.value)]
               ++ (if p.2.negate
                   then [("filter[conditions][" ++ toString p.1 ++ "][negate]", "1")]
                   else [])
               ++ optPairs
                    (fun op => ("filter[conditions][" ++ toString p.1 ++ "][operator]", op.str))
                    p.2.operator))
      ++ ([] : List SortDescriptor).map (fun s => ("sort[]", s.field ++ ":" ++ s.direction.str)) :=
  claim_C2_filter_block_emission
    { QueryParams.new with filter := [⟨"status", "active", some .OR, true⟩] }
    (by decide)

/-- C4.  Every request the client builds — `list` or `get`, any endpoint,
with or without query params — carries `appname=<identity>` as the first
query pair, ahead of every encoder-produced pair; `list` without params
carries the appname pair alone. -/
theorem claim_C4_appname_first_pair (c : Client String) (resource : String) :
    (∀ params : Option QueryParams,
      (ResourceEndpoint.list c resource params).queryPairs =
        ("appname", c.appName)
          :: (match params with
              | some p => p.applyToUrl
              | none => []))
    ∧ (ResourceEndpoint.list c resource none).queryPairs = [("appname", c.appName)]
    ∧ ∀ (id : String) (profile : Option QueryProfile) (inc exc : Option (List String)),
        (ResourceEndpoint.get c resource id profile inc exc).queryPairs.head? =
          some ("appname", c.appName) := by
  refine ⟨fun params => ?_, rfl, fun id profile inc exc => ?_⟩
  · cases params <;> rfl
  · unfold ResourceEndpoint.get Client.getWithParams
    simp

/-- C6.  `get` targets the path `<resource>/<id>` under the client's base
and sends, besides `appname`, exactly the pairs derived from the optional
profile, include and exclude arguments — every other query capability of the
fresh `QueryParams` is unused; with all three absent the request carries zero
encoder pairs. -/
theorem claim_C6_get_request_shape (c : Client String) (resource id : String)
    (profile : Option QueryProfile) (inc exc : Option (List String)) :
    (ResourceEndpoint.get c resource id profile inc exc).path
        = c.apiBase ++ resource ++ "/" ++ id
    ∧ (ResourceEndpoint.get c resource id profile inc exc).queryPairs =
        ("appname", c.appName)
          :: (optPairs (fun p => ("profile", p.str)) profile
              ++ (inc.getD []).map (fun f => ("fields[include][]", f))
              ++ (exc.getD []).map (fun f => ("fields[exclude][]", f)))
    ∧ (ResourceEndpoint.get c resource id none none none).queryPairs
        = [("appname", c.appName)] := by
  refine ⟨rfl, ?_, rfl⟩
  unfold ResourceEndpoint.get Client.getWithParams QueryParams.applyToUrl
  cases profile <;> cases inc <;> cases exc <;>
    simp [QueryParams.new, QueryParams.withProfile, QueryParams.withInclude,
      QueryParams.withExclude, optPairs]

/-- C8.  Both constructors succeed exactly when the external URL parser
accepts the assembled base `<scheme>://<domain>/<version>/` (and then hold
precisely that parsed base and the given application name, nothing else);
the secure-default constructor is the explicit-scheme one applied to
`https`. -/
theorem claim_C8_constructors_validate_base (U E : Type) (parse : String → Except E U)
    (scheme domain appName : String) (version : APIVersion) :
    Client.newWithScheme parse scheme domain appName version =
      (parse (scheme ++ "://" ++ domain ++ "/" ++ version.str ++ "/")).map
        (fun u => { apiBase := u, appName := appName })
    ∧ Client.new parse domain appName version =
        Client.newWithScheme parse "https" domain appName version := by
  constructor
  · unfold Client.newWithScheme
    cases h : parse (scheme ++ "://" ++ domain ++ "/" ++ version.str ++ "/") <;>
      simp [h, Except.map, bind, Except.bind, pure, Except.pure]
  · rfl

/-- C7.  A body whose `data` is the empty array and which carries no
`totalCount` and no `count` key decodes to an envelope with an empty item
list and both counts absent (`none`) — and absence is distinguishable from a
present zero, which decodes to `some 0`. -/
theorem claim_C7_absent_counts_not_zero {T : Type} (decT : Json → Except String T) :
    decodeApiResponse decT (.obj [("data", .arr [])]) =
      .ok { href := none, time := none, links := none,
            total_count := none, count := none, data := [] }
    ∧ decodeApiResponse decT
        (.obj [("data", .arr []), ("totalCount", .num 0), ("count", .num 0)]) =
      .ok { href := none, time := none, links := none,
            total_count := some 0, count := some 0, data := [] }
    ∧ (some 0 : Option Nat) ≠ none := by
  refine ⟨rfl, rfl, by simp⟩

lemma except_bind_ok {ε α β : Type} (a : α) (f : α → Except ε β) :
    (Except.ok a >>= f) = f a := rfl

lemma except_bind_error {ε α β : Type} (e : ε) (f : α → Except ε β) :
    ((Except.error e : Except ε α) >>= f) = Except.error e := rfl

/-- C10.  A body without the `data` key fails to decode, whatever else it
contains; with `data` present, every other top-level envelope field may be
absent without error — `data` is the only required field. -/
theorem claim_C10_data_only_required_field {T : Type} (decT : Json → Except String T)
    (ms : List (String × Json)) (hnd : ms.lookup "data" = none) :
    (∃ e, decodeApiResponse decT (.obj ms) = .error e)
    ∧ decodeApiResponse decT (.obj [("data", .arr [])]) =
        .ok { href := none, time := none, links := none,
              total_count := none, count := none, data := [] } := by
  refine ⟨?_, rfl⟩
  show ∃ e, (do
    let href ← getOptField ms "href" decodeString
    let time ← getOptField ms "time" decodeU32
    let links ← getOptField ms "links" decodeLinks
    let tc ← getOptField ms "totalCount" decodeU32
    let cnt ← getOptField ms "count" decodeU32
    let data ← getReqField ms "data" (decodeVec (decodeApiItem decT))
    pure { href := href, time := time, links := links,
           total_count := tc, count := cnt, data := data }) = (.error e : Except String (ApiResponse T))
  have hdata : getReqField ms "data" (decodeVec (decodeApiItem decT))
      = (.error ("missing field " ++ "data") : Except String (List (ApiItem T))) := by
    unfold getReqField
    rw [hnd]
  cases h1 : getOptField ms "href" decodeString with
  | error e => exact ⟨e, by simp only [except_bind_ok, except_bind_error]⟩
  | ok href =>
    cases h2 : getOptField ms "time" decodeU32 with
    | error e => exact ⟨e, by simp only [except_bind_ok, except_bind_error]⟩
    | ok time =>
      cases h3 : getOptField ms "links" decodeLinks with
      | error e => exact ⟨e, by simp only [except_bind_ok, except_bind_error]⟩
      | ok links =>
        cases h4 : getOptField ms "totalCount" decodeU32 with
        | error e => exact ⟨e, by simp only [except_bind_ok, except_bind_error]⟩
        | ok tc =>
          cases h5 : getOptField ms "count" decodeU32 with
          | error e => exact ⟨e, by simp only [except_bind_ok, except_bind_error]⟩
          | ok cnt =>
            exact ⟨"missing field " ++ "data", by
              simp only [except_bind_ok, hdata, except_bind_error]⟩

lemma hexVal_hexUpperDigit : ∀ n : Nat, n < 16 → hexVal (hexUpperDigit n) = n := by
  decide

set_option maxRecDepth 8192 in
lemma safeByte_char_facts : ∀ b : Nat, b < 256 → isFormUrlSafeByte b = true →
    (Char.ofNat b).toNat = b ∧ Char.ofNat b ≠ '+' ∧ Char.ofNat b ≠ '%' := by
  decide

/-- Decoding consumes one encoded byte at a time: the encoding of a byte
followed by anything decodes to that byte followed by the decoding of the
rest. -/
lemma decode_encodeByte (b : Nat) (hb : b < 256) (rest : List Char) :
    formUrlDecodeChars (encodeByte b ++ rest) = b :: formUrlDecodeChars rest := by
  by_cases h32 : b = 32
  · subst h32
    show formUrlDecodeChars ('+' :: rest) = 32 :: formUrlDecodeChars rest
    rcases rest with _ | ⟨a, _ | ⟨b', t⟩⟩ <;> simp [formUrlDecodeChars]
  · by_cases hsafe : isFormUrlSafeByte b = true
    · obtain ⟨htn, hplus, hpct⟩ := safeByte_char_facts b hb hsafe
      have henc : encodeByte b = [Char.ofNat b] := by
        simp [encodeByte, h32, hsafe]
      rw [henc]
      rcases rest with _ | ⟨a, _ | ⟨b', t⟩⟩ <;>
        simp [formUrlDecodeChars, hplus, hpct, htn]
    · have henc : encodeByte b = ['%', hexUpperDigit (b / 16), hexUpperDigit (b % 16)] := by
        simp [encodeByte, h32, hsafe]
      rw [henc]
      show formUrlDecodeChars ('%' :: hexUpperDigit (b / 16) :: hexUpperDigit (b % 16) :: rest)
          = b :: formUrlDecodeChars rest
      have h1 : hexVal (hexUpperDigit (b / 16)) = b / 16 :=
        hexVal_hexUpperDigit _ (by omega)
      have h2 : hexVal (hexUpperDigit (b % 16)) = b % 16 :=
        hexVal_hexUpperDigit _ (by omega)
      simp [formUrlDecodeChars, h1, h2]
      omega

/-- Round-trip of the form-urlencoded collaborator: percent-decoding the
serialization of any byte string recovers it exactly. -/
lemma formUrlDecode_formUrlEncode (bs : List Nat) (hb : ∀ b ∈ bs, b < 256) :
    formUrlDecodeChars (formUrlEncodeBytes bs) = bs := by
  induction bs with
  | nil => rfl
  | cons b bs ih =>
    have hb1 : b < 256 := hb b (List.mem_cons_self b bs)
    have hbs : ∀ x ∈ bs, x < 256 := fun x hx => hb x (List.mem_cons_of_mem _ hx)
    show formUrlDecodeChars (encodeByte b ++ formUrlEncodeBytes bs) = b :: bs
    rw [decode_encodeByte b hb1, ih hbs]

lemma utf8Bytes_lt (c : Char) : ∀ b ∈ utf8Bytes c, b < 256 := by
  intro b hb
  unfold utf8Bytes at hb
  by_cases h1 : c.toNat < 128
  · simp [h1] at hb
    omega
  · by_cases h2 : c.toNat < 2048
    · simp [h1, h2] at hb
      rcases hb with hb | hb <;> omega
    · by_cases h3 : c.toNat < 65536
      · simp [h1, h2, h3] at hb
        rcases hb with hb | hb | hb <;> omega
      · simp [h1, h2, h3] at hb
        rcases hb with hb | hb | hb | hb <;> omega

lemma strBytes_lt (s : String) : ∀ b ∈ strBytes s, b < 256 := by
  intro b hb
  unfold strBytes at hb
  rw [List.mem_flatMap] at hb
  obtain ⟨c, _, hc⟩ := hb
  exact utf8Bytes_lt c b hc

/-- C5.  Percent-encoding round-trips: for every key and value string the
encoder emits, decoding the form-urlencoded serialization of its UTF-8 bytes
recovers exactly those bytes; a literal space serializes as `+` (value
`"foo bar"` becomes `foo+bar`), a literal `+` as `%2B` (field name
`"field+name"` becomes `field%2Bname`), and the scenario clause emits its
two pairs with no `operator` pair. -/
theorem claim_C5_percent_encoding_roundtrip :
    (∀ qp : QueryParams, ∀ pr ∈ qp.applyToUrl,
        formUrlDecodeChars (formUrlEncodeBytes (strBytes pr.1)) = strBytes pr.1
        ∧ formUrlDecodeChars (formUrlEncodeBytes (strBytes pr.2)) = strBytes pr.2)
    ∧ formUrlEncodeBytes (strBytes "foo bar") = "foo+bar".data
    ∧ formUrlEncodeBytes (strBytes "field+name") = "field%2Bname".data
    ∧ QueryParams.applyToUrl
        { QueryParams.new with query := [⟨"foo bar", ["field+name"], none⟩] } =
      [("query[0][value]", "foo bar"), ("query[0][fields][0]", "field+name")] := by
  refine ⟨fun qp pr _ => ⟨?_, ?_⟩, by decide, by decide, by decide⟩ <;>
    exact formUrlDecode_formUrlEncode _ (strBytes_lt _)

/-- Witness for C5 at the spec's scenario pair. -/
theorem claim_C5_witness :
    (("query[0][value]", "foo bar") ∈
      QueryParams.applyToUrl
        { QueryParams.new with query := [⟨"foo bar", ["field+name"], none⟩] })
    ∧ (formUrlDecodeChars (formUrlEncodeBytes (strBytes "query[0][value]"))
          = strBytes "query[0][value]"
       ∧ formUrlDecodeChars (formUrlEncodeBytes (strBytes "foo bar")) = strBytes "foo bar") :=
  ⟨by decide,
    claim_C5_percent_encoding_roundtrip.1
      { QueryParams.new with query := [⟨"foo bar", ["field+name"], none⟩] }
      ("query[0][value]", "foo bar") (by decide)⟩

/-- Witness for C10: an object carrying only `href` — no `data` key — fails
to decode. -/
theorem claim_C10_witness :
    (∃ e, decodeApiResponse (fun j => .ok j) (.obj [("href", .str "x")]) = .error e)
    ∧ decodeApiResponse (fun j => .ok j) (.obj [("data", .arr [])]) =
        .ok { href := none, time := none, links := none,
              total_count := none, count := none, data := [] } :=
  claim_C10_data_only_required_field (fun j => .ok j) [("href", .str "x")] rfl

end ReliefWeb
